import Mathlib

/-!
Shallow embedding of the smf-async MIDI file (SMF) reader and writer
(src/lib.rs, src/read.rs, src/write.rs).

Bytes are modelled as natural numbers (with the invariant that real stream
bytes are < 256).  The async byte stream of the reader is modelled as a
`List Nat` together with an explicit cursor; the writer's seekable output
stream is a `WStream` (byte list plus cursor) whose `write_all` overwrites
at the cursor, matching `AsyncWrite` + `AsyncSeek` semantics.  The
caller-supplied `ReadHandler` observer is modelled as a pure collector: the
decoder returns the list of callbacks it would have issued.  The fallible
`fio::Error` values of the source carry formatted strings; they are embedded
as structured variants carrying the same data that the format strings
interpolate.
-/

set_option maxRecDepth 4096

deriving instance DecidableEq for Except

namespace Smf

/-- SMF format (lib.rs): type 0 / 1 / 2. -/
inductive Format
  | Single
  | Multiple
  | Sequential
deriving DecidableEq, Repr

/-- Timing division (lib.rs): ticks per quarter note, or SMPTE fps + ticks per frame. -/
inductive Division
  | PPQN (d : Nat)
  | SMPTE (fps tpf : Nat)
deriving DecidableEq, Repr

/-- Errors of the reader (read.rs).  Each variant is one of the
`fio::Error::new(InvalidData, format!(...))` sites, carrying the values the
format string interpolates; `ioError` stands for an underlying transport
failure (here: reading past the end of the input). -/
inductive Err
  | ioError
  | vlqTooLong (b pos : Nat)
  | invalidByte (b off : Nat)
  | badMagic (m : List Nat)
  | badHeaderLen (l : Nat)
  | badFormat (f : Nat)
  | badSmpteFps (f : Int)
  | badTrackMagic (m : List Nat)
  | unexpectedContinuation (status track pos : Nat)
  | trackOverrun (track pos : Nat)
  | noRunningStatus (status track pos : Nat)
  | outOfFuel
deriving DecidableEq, Repr

/-- One observer callback of the `ReadHandler` trait (read.rs). -/
inductive Callback
  | header (format : Format) (num_tracks : Nat) (division : Division)
  | track
  | midi (delta : Nat) (data : List Nat)
  | meta (delta : Nat) (id : Nat) (data : List Nat)
  | escaped (delta : Nat) (data : List Nat)
  | sysex (delta : Nat) (data : List Nat)
deriving DecidableEq, Repr

/-- Per-track reader state (read.rs lines 173-174). -/
structure TrackState where
  sysex_continuation : Bool
  last_status : Nat
deriving DecidableEq, Repr

/-- read_u8 (read.rs): read one byte at the cursor, advance the cursor. -/
def readU8 (input : List Nat) (pos : Nat) : Except Err (Nat × Nat) :=
  match input[pos]? with
  | some b => .ok (b, pos + 1)
  | none => .error .ioError

/-- read_exact into a buffer of n bytes (read.rs helpers). -/
def readExact (input : List Nat) (pos n : Nat) : Except Err (List Nat × Nat) :=
  if pos + n ≤ input.length then .ok ((input.drop pos).take n, pos + n)
  else .error .ioError

/-- Loop body of read_vlq (read.rs lines 62-81).  The source counts
continuation bytes upward and fails when `count >= 4` after an increment;
here `k` is the remaining continuation budget (k = 3 - count), so the
failure fires on the same byte.  The u32 accumulator cannot overflow: at
most four 7-bit groups are ever accumulated. -/
def read_vlq_go (input : List Nat) : Nat → Nat → Nat → Except Err (Nat × Nat)
  | k, value, pos =>
    match readU8 input pos with
    | .error e => .error e
    | .ok (c, pos') =>
      let value' := (value <<< 7) ||| (c &&& 0x7f)
      if c &&& 0x80 = 0 then .ok (value', pos')
      else
        match k with
        | 0 => .error (.vlqTooLong c pos')
        | k + 1 => read_vlq_go input k value' pos'

/-- read_vlq (read.rs lines 62-81). -/
def read_vlq (input : List Nat) (pos : Nat) : Except Err (Nat × Nat) :=
  read_vlq_go input 3 0 pos

/-- read_vlq_event (read.rs lines 82-89): VLQ length followed by that many bytes. -/
def read_vlq_event (input : List Nat) (pos : Nat) : Except Err (List Nat × Nat) :=
  match read_vlq input pos with
  | .error e => .error e
  | .ok (len, pos') => readExact input pos' len

/-- validate_u7 (read.rs lines 97-108): reject the first byte with its high
bit set, reporting `i as u64 + offset` (here: the running offset). -/
def validate_u7 (offset : Nat) : List Nat → Except Err Unit
  | [] => .ok ()
  | b :: rest =>
    if 0x80 ≤ b then .error (.invalidByte b offset)
    else validate_u7 (offset + 1) rest

/-- Event length rule of the midi branch (read.rs lines 239-242):
2 bytes for status nibbles 0xC_ / 0xD_, otherwise 3. -/
def midiLen (status : Nat) : Nat :=
  if status &&& 0xF0 = 0xC0 ∨ status &&& 0xF0 = 0xD0 then 2 else 3

/-- One iteration of the per-track event loop (read.rs lines 190-270),
from the point after the boundary check: returns the callback issued, the
new cursor and the new track state. -/
def readEvent (input : List Nat) (track_index pos0 : Nat) (st : TrackState) :
    Except Err (Callback × Nat × TrackState) :=
  match read_vlq input pos0 with
  | .error e => .error e
  | .ok (delta, pos1) =>
  match readU8 input pos1 with
  | .error e => .error e
  | .ok (status, pos2) =>
  let last_status := if 0x80 ≤ status ∧ status < 0xF0 then status else st.last_status
  let running_status := if 0x80 ≤ status ∧ status < 0xF0 then false else true
  if st.sysex_continuation then
    if status ≠ 0xF7 then
      .error (.unexpectedContinuation status track_index pos2)
    else
      match read_vlq_event input pos2 with
      | .error e => .error e
      | .ok (data, pos3) =>
        let cont := if data.getLast? = some 0xF7 then false else true
        match validate_u7 pos3 data with
        | .error e => .error e
        | .ok _ => .ok (.sysex delta data, pos3, ⟨cont, 0⟩)
  else if status = 0xF0 then
    match read_vlq_event input pos2 with
    | .error e => .error e
    | .ok (data, pos3) =>
      let cont := if data.getLast? ≠ some 0xF7 then true else false
      match validate_u7 pos3 data with
      | .error e => .error e
      | .ok _ => .ok (.sysex delta data, pos3, ⟨cont, 0⟩)
  else if status = 0xF7 then
    match read_vlq_event input pos2 with
    | .error e => .error e
    | .ok (data, pos3) => .ok (.escaped delta data, pos3, ⟨st.sysex_continuation, 0⟩)
  else if status = 0xFF then
    match readU8 input pos2 with
    | .error e => .error e
    | .ok (meta_type, pos3) =>
      match validate_u7 (pos0 + 1) [meta_type] with
      | .error e => .error e
      | .ok _ =>
        match read_vlq_event input pos3 with
        | .error e => .error e
        | .ok (data, pos4) =>
          .ok (.meta delta meta_type data, pos4, ⟨st.sysex_continuation, 0⟩)
  else if last_status ≠ 0 then
    let length := midiLen last_status
    let offset := if running_status then 1 else 0
    match readExact input pos2 (length - 1 - offset) with
    | .error e => .error e
    | .ok (tail, pos3) =>
      let dataBytes := if running_status then status :: tail else tail
      match validate_u7 (pos0 + (1 - offset)) dataBytes with
      | .error e => .error e
      | .ok _ =>
        .ok (.midi delta (last_status :: dataBytes), pos3, ⟨st.sysex_continuation, last_status⟩)
  else
    .error (.noRunningStatus status track_index pos2)

/-- The per-track event loop (read.rs lines 176-271): stop exactly at the
track end, fail on overshoot, otherwise decode one event and continue.
`fuel` bounds the iteration count only; every iteration consumes at least
two bytes, so `track_len + 1` iterations always suffice. -/
def readTrackGo (input : List Nat) (track_index track_end : Nat) :
    Nat → Nat → TrackState → Except Err (List Callback × Nat)
  | 0, _, _ => .error .outOfFuel
  | fuel + 1, pos, st =>
    if pos = track_end then .ok ([], pos)
    else if track_end < pos then .error (.trackOverrun track_index pos)
    else
      match readEvent input track_index pos st with
      | .error e => .error e
      | .ok (cb, pos', st') =>
        match readTrackGo input track_index track_end fuel pos' st' with
        | .error e => .error e
        | .ok (cbs, fin) => .ok (cb :: cbs, fin)

/-- read_u16_be (read.rs). -/
def read_u16_be (input : List Nat) (pos : Nat) : Except Err (Nat × Nat) :=
  match readU8 input pos with
  | .error e => .error e
  | .ok (b0, p) =>
    match readU8 input p with
    | .error e => .error e
    | .ok (b1, p) => .ok (b0 * 256 + b1, p)

/-- read_u32_be (read.rs). -/
def read_u32_be (input : List Nat) (pos : Nat) : Except Err (Nat × Nat) :=
  match readU8 input pos with
  | .error e => .error e
  | .ok (b0, p) =>
  match readU8 input p with
  | .error e => .error e
  | .ok (b1, p) =>
  match readU8 input p with
  | .error e => .error e
  | .ok (b2, p) =>
  match readU8 input p with
  | .error e => .error e
  | .ok (b3, p) => .ok (((b0 * 256 + b1) * 256 + b2) * 256 + b3, p)

/-- Cast a u16 bit pattern to the signed value of `x as i16`. -/
def i16cast (x : Nat) : Int := if x < 0x8000 then (x : Int) else (x : Int) - 65536

/-- Cast a u8 bit pattern to the signed value of `x as i8`. -/
def i8cast (x : Nat) : Int := if x < 0x80 then (x : Int) else (x : Int) - 256

/-- Truncating cast of a signed value to u8 (`as u8`). -/
def u8cast (x : Int) : Nat := (x % 256).toNat

/-- Truncating cast of a signed value to u16 (`as u16`). -/
def u16cast (x : Int) : Nat := (x % 65536).toNat

/-- Division decoding of the header reader (read.rs lines 144-158).
`division as i16 >> 8` is an arithmetic shift, i.e. floor division by 256. -/
def decodeDivision (division : Nat) : Except Err Division :=
  if i16cast division < 0 then
    let fps := u8cast (-(Int.fdiv (i16cast division) 256))
    if fps ≠ 24 ∧ fps ≠ 25 ∧ fps ≠ 29 ∧ fps ≠ 30 then
      .error (.badSmpteFps (-(i8cast fps)))
    else .ok (.SMPTE fps (division % 256))
  else .ok (.PPQN division)

/-- The per-file track loop of read() (read.rs lines 160-272).
`remaining` counts tracks still to be read; `track_index` recovers the
source's 0-based loop counter. -/
def readTracksGo (input : List Nat) (num_tracks : Nat) :
    Nat → Nat → Except Err (List Callback)
  | 0, _ => .ok []
  | remaining + 1, pos =>
    let track_index := num_tracks - remaining - 1
    match readExact input pos 4 with
    | .error e => .error e
    | .ok (magic, pos1) =>
    match read_u32_be input pos1 with
    | .error e => .error e
    | .ok (track_len, pos2) =>
      if magic ≠ [0x4D, 0x54, 0x72, 0x6B] then .error (.badTrackMagic magic)
      else
        let track_end := pos2 + track_len
        match readTrackGo input track_index track_end (track_len + 1) pos2 ⟨false, 0⟩ with
        | .error e => .error e
        | .ok (cbs, fin) =>
          match readTracksGo input num_tracks remaining fin with
          | .error e => .error e
          | .ok rest => .ok (.track :: (cbs ++ rest))

/-- Top-level read (read.rs lines 110-273): header chunk, then the tracks. -/
def read (input : List Nat) : Except Err (List Callback) :=
  match readExact input 0 4 with
  | .error e => .error e
  | .ok (magic, pos) =>
  match read_u32_be input pos with
  | .error e => .error e
  | .ok (header_len, pos) =>
  match read_u16_be input pos with
  | .error e => .error e
  | .ok (format, pos) =>
  match read_u16_be input pos with
  | .error e => .error e
  | .ok (num_tracks, pos) =>
  match read_u16_be input pos with
  | .error e => .error e
  | .ok (division, pos) =>
  if magic ≠ [0x4D, 0x54, 0x68, 0x64] then .error (.badMagic magic)
  else if header_len ≠ 6 then .error (.badHeaderLen header_len)
  else
    match (match format with
           | 0 => .ok Format.Single
           | 1 => .ok Format.Multiple
           | 2 => .ok Format.Sequential
           | _ => .error (Err.badFormat format) : Except Err Format) with
    | .error e => .error e
    | .ok fmt =>
      match decodeDivision division with
      | .error e => .error e
      | .ok div =>
        match readTracksGo input num_tracks num_tracks pos with
        | .error e => .error e
        | .ok cbs => .ok (.header fmt num_tracks div :: cbs)

/-! ## Writer (write.rs) -/

/-- The writer's seekable output stream: byte list plus cursor.  `write_all`
overwrites at the cursor (extending the list when writing at its end) and
advances the cursor, matching AsyncWrite + AsyncSeek semantics; all seeks
performed by the source stay within the already-written region. -/
structure WStream where
  data : List Nat
  pos : Nat
deriving DecidableEq, Repr

/-- write_all: overwrite `bs` at the cursor and advance it. -/
def WStream.write_all (s : WStream) (bs : List Nat) : WStream :=
  ⟨s.data.take s.pos ++ bs ++ s.data.drop (s.pos + bs.length), s.pos + bs.length⟩

/-- seek(SeekFrom::Start p). -/
def WStream.seek (s : WStream) (p : Nat) : WStream := ⟨s.data, p⟩

/-- Big-endian bytes of a u16 value (u16::to_be_bytes). -/
def be16 (v : Nat) : List Nat := [v / 256 % 256, v % 256]

/-- Big-endian bytes of a u32 value (u32::to_be_bytes). -/
def be32 (v : Nat) : List Nat :=
  [v / 16777216 % 256, v / 65536 % 256, v / 256 % 256, v % 256]

/-- Format as u16 (write.rs line 12). -/
def Format.toU16 : Format → Nat
  | .Single => 0
  | .Multiple => 1
  | .Sequential => 2

/-- Division encoding of the header writer (write.rs lines 15-18):
for SMPTE, `((-(fps as i8) as i16) << 8) as u16 + tpf as u16` (u16 addition
wraps); for PPQN the raw value. -/
def encodeDivision : Division → Nat
  | .PPQN d => d
  | .SMPTE fps tpf => (u16cast ((-(i8cast fps)) * 256) + tpf) % 65536

/-- Writer state (write.rs lines 30-39), including its output stream. -/
structure WriterState where
  stream : WStream
  track_count_pos : Nat
  track_count : Nat
  track_len_pos : Nat
  last_status : Nat
  sysex_continuation : Bool
deriving DecidableEq, Repr

/-- Top-level write (write.rs lines 5-28): header chunk with a zero
placeholder for the track count, whose offset is recorded. -/
def write (format : Format) (division : Division) : WriterState :=
  let s := (WStream.mk [] 0).write_all [0x4D, 0x54, 0x68, 0x64]
  let s := s.write_all (be32 6)
  let s := s.write_all (be16 format.toU16)
  let track_count_pos := s.pos
  let s := s.write_all (be16 0)
  let s := s.write_all (be16 (encodeDivision division))
  ⟨s, track_count_pos, 0, 0, 0, false⟩

/-- Writer::track (write.rs lines 42-49): track chunk header with a zero
length placeholder; resets running status and counts the track (u16
arithmetic, so the count wraps at 2^16). -/
def Writer.track (w : WriterState) : WriterState :=
  let s := w.stream.write_all [0x4D, 0x54, 0x72, 0x6B]
  let track_len_pos := s.pos
  let s := s.write_all (be32 0)
  { w with stream := s, track_len_pos := track_len_pos, last_status := 0,
           track_count := (w.track_count + 1) % 65536 }

/-- Writer::finish (write.rs lines 50-62): if at least one track was
written, seek back to the recorded offset, backpatch the track count and
seek forward again.  Returns the final stream. -/
def Writer.finish (w : WriterState) : WStream :=
  if w.track_count > 0 then
    let pos := w.stream.pos
    let s := (w.stream.seek w.track_count_pos).write_all (be16 w.track_count)
    s.seek pos
  else w.stream

/-- The byte `b(v, byte)` of TrackWriter::vlq (write.rs lines 73-78). -/
def vlqByte (v byte : Nat) : Nat :=
  let byte := byte * 7
  let last := if byte > 0 then 0x80 else 0
  (((v &&& (0x7f <<< byte)) >>> byte) % 256) ||| last

/-- The bytes emitted by TrackWriter::vlq (write.rs lines 70-90). -/
def vlqBytes (v : Nat) : List Nat :=
  if v > 0x1fffff then [vlqByte v 3, vlqByte v 2, vlqByte v 1, vlqByte v 0]
  else if v > 0x3fff then [vlqByte v 2, vlqByte v 1, vlqByte v 0]
  else if v > 0x7f then [vlqByte v 1, vlqByte v 0]
  else [vlqByte v 0]

/-- TrackWriter::vlq as a state transition. -/
def TrackWriter.vlq (w : WriterState) (v : Nat) : WriterState :=
  { w with stream := w.stream.write_all (vlqBytes v) }

/-- TrackWriter::raw_event (write.rs lines 91-94). -/
def TrackWriter.raw_event (w : WriterState) (delta : Nat) (data : List Nat) : WriterState :=
  let w := TrackWriter.vlq w delta
  { w with stream := w.stream.write_all data }

/-- TrackWriter::midi_event (write.rs lines 95-111).  `data[0]` is the
status byte (`List.headI`; the caller contract requires nonempty data);
when it equals the running status it is suppressed. -/
def TrackWriter.midi_event (w : WriterState) (delta : Nat) (data : List Nat) : WriterState :=
  if data.headI = w.last_status then
    TrackWriter.raw_event w delta (data.drop 1)
  else
    { (TrackWriter.raw_event w delta data) with last_status := data.headI }

/-- TrackWriter::meta_event (write.rs lines 112-121). -/
def TrackWriter.meta_event (w : WriterState) (delta id : Nat) (data : List Nat) : WriterState :=
  let w := { w with last_status := 0 }
  let w := TrackWriter.vlq w delta
  let w := { w with stream := w.stream.write_all [0xFF, id] }
  let w := TrackWriter.vlq w data.length
  { w with stream := w.stream.write_all data }

/-- TrackWriter::escaped_event (write.rs lines 122-130). -/
def TrackWriter.escaped_event (w : WriterState) (delta : Nat) (data : List Nat) : WriterState :=
  let w := { w with last_status := 0 }
  let w := TrackWriter.vlq w delta
  let w := { w with stream := w.stream.write_all [0xF7] }
  let w := TrackWriter.vlq w data.length
  { w with stream := w.stream.write_all data }

/-- TrackWriter::sysex_event (write.rs lines 131-152).  `data[0]` is the
0xF0 / 0xF7 status byte; a 0xF0 packet opens a continuation, and a packet
of length > 1 whose last byte is 0xF7 closes it. -/
def TrackWriter.sysex_event (w : WriterState) (delta : Nat) (data : List Nat) : WriterState :=
  let status := data.headI
  let w := if status = 0xF0 then { w with sysex_continuation := true } else w
  let w := if data.length > 1 ∧ data.getLast? = some 0xF7 then
             { w with sysex_continuation := false }
           else w
  let w := { w with last_status := 0 }
  let w := TrackWriter.vlq w delta
  let w := { w with stream := w.stream.write_all [status] }
  let w := TrackWriter.vlq w (data.length - 1)
  { w with stream := w.stream.write_all (data.drop 1) }

/-- TrackWriter::finish (write.rs lines 153-169): backpatch the track
length field if any event bytes were written, then seek forward again. -/
def TrackWriter.finish (w : WriterState) : WriterState :=
  let track_len := w.stream.pos - (w.track_len_pos + 4)
  if track_len > 0 then
    let s := (w.stream.seek w.track_len_pos).write_all (be32 track_len)
    { w with stream := s.seek (s.pos + track_len) }
  else w

/-! ## Helper lemmas: byte-level arithmetic -/

theorem and7f_small : ∀ x < 128, x &&& 0x7f = x := by decide

theorem and7f_plus : ∀ x < 128, (x + 128) &&& 0x7f = x := by decide

theorem and80_small : ∀ x < 128, x &&& 0x80 = 0 := by decide

theorem and80_plus : ∀ x < 128, (x + 128) &&& 0x80 = 128 := by decide

theorem or128_small : ∀ x < 128, x ||| 128 = x + 128 := by decide

theorem shiftLeft7_lor (a m : Nat) (h : m < 128) : (a <<< 7) ||| m = a * 128 + m := by
  rw [Nat.shiftLeft_eq]
  have h7 : (2 : Nat) ^ 7 = 128 := by norm_num
  calc a * 2 ^ 7 ||| m = 2 ^ 7 * a ||| m := by rw [Nat.mul_comm]
    _ = 2 ^ 7 * a + m := (Nat.mul_add_lt_is_or (by omega) a).symm
    _ = a * 128 + m := by rw [Nat.mul_comm, h7]

theorem mask_shift (v s : Nat) : (v &&& (0x7f <<< s)) >>> s = v / 2 ^ s % 128 := by
  have step : (v &&& (0x7f <<< s)) >>> s = (v >>> s) &&& 0x7f := by
    apply Nat.eq_of_testBit_eq
    intro i
    have h7f : (0x7f : Nat) = 2 ^ 7 - 1 := by norm_num
    simp only [Nat.testBit_shiftRight, Nat.testBit_and, Nat.testBit_shiftLeft, h7f,
      Nat.testBit_two_pow_sub_one]
    by_cases hi : i < 7 <;>
      simp [hi, Nat.add_sub_cancel_left, Nat.le_add_right]
  rw [step, show (0x7f : Nat) = 2 ^ 7 - 1 from by norm_num,
    Nat.and_pow_two_sub_one_eq_mod, Nat.shiftRight_eq_div_pow]

theorem vlqByte_zero (v : Nat) : vlqByte v 0 = v % 128 := by
  have h := mask_shift v 0
  simp only [pow_zero, Nat.div_one] at h
  show (((v &&& (0x7f <<< (0 * 7))) >>> (0 * 7)) % 256) ||| (if 0 * 7 > 0 then 0x80 else 0)
      = v % 128
  rw [Nat.zero_mul, h, if_neg (by omega)]
  rw [Nat.mod_eq_of_lt (by omega : v % 128 < 256), Nat.or_zero]

theorem vlqByte_pos (v k : Nat) (hk : 0 < k) :
    vlqByte v k = v / 2 ^ (7 * k) % 128 + 128 := by
  have h := mask_shift v (k * 7)
  show (((v &&& (0x7f <<< (k * 7))) >>> (k * 7)) % 256) ||| (if k * 7 > 0 then 0x80 else 0)
      = v / 2 ^ (7 * k) % 128 + 128
  rw [h, if_pos (by omega)]
  have hlt : v / 2 ^ (k * 7) % 128 < 128 := Nat.mod_lt _ (by norm_num)
  rw [Nat.mod_eq_of_lt (by omega), or128_small _ hlt, Nat.mul_comm k 7]

theorem vlqByte_one (v : Nat) : vlqByte v 1 = v / 128 % 128 + 128 := by
  rw [vlqByte_pos v 1 (by norm_num)]; norm_num

theorem vlqByte_two (v : Nat) : vlqByte v 2 = v / 16384 % 128 + 128 := by
  rw [vlqByte_pos v 2 (by norm_num)]; norm_num

theorem vlqByte_three (v : Nat) : vlqByte v 3 = v / 2097152 % 128 + 128 := by
  rw [vlqByte_pos v 3 (by norm_num)]; norm_num

/-! ## Helper lemmas: stream positions and the VLQ codec -/

theorem getElem?_append_add (pre l : List Nat) (k : Nat) :
    (pre ++ l)[pre.length + k]? = l[k]? := by
  rw [List.getElem?_append_right (Nat.le_add_right _ _)]
  simp

theorem readU8_at (input : List Nat) (pos b : Nat) (hget : input[pos]? = some b) :
    readU8 input pos = .ok (b, pos + 1) := by
  simp [readU8, hget]

theorem readExact_at (pre mid rest : List Nat) :
    readExact (pre ++ (mid ++ rest)) pre.length mid.length
      = .ok (mid, pre.length + mid.length) := by
  unfold readExact
  rw [if_pos (by simp)]
  rw [List.drop_left, List.take_left]

theorem validate_u7_ok (data : List Nat) (h : ∀ b ∈ data, b < 0x80) :
    ∀ offset, validate_u7 offset data = .ok () := by
  induction data with
  | nil => intro offset; rfl
  | cons b rest ih =>
    intro offset
    unfold validate_u7
    rw [if_neg (by have := h b (by simp); omega)]
    exact ih (fun x hx => h x (by simp [hx])) (offset + 1)

theorem read_vlq_go_cont (input : List Nat) (pos c k value : Nat)
    (hc : c < 128) (hget : input[pos]? = some (c + 128)) :
    read_vlq_go input (k + 1) value pos
      = read_vlq_go input k (value * 128 + c) (pos + 1) := by
  conv_lhs => unfold read_vlq_go
  simp only [readU8_at input pos (c + 128) hget, and7f_plus c hc, and80_plus c hc,
    shiftLeft7_lor value c hc]
  rw [if_neg (by omega)]

theorem read_vlq_go_last (input : List Nat) (pos c k value : Nat)
    (hc : c < 128) (hget : input[pos]? = some c) :
    read_vlq_go input k value pos = .ok (value * 128 + c, pos + 1) := by
  conv_lhs => unfold read_vlq_go
  simp [readU8_at input pos c hget, and7f_small c hc, and80_small c hc,
    shiftLeft7_lor value c hc]

theorem getElem?_append_pos (pre l : List Nat) (pos k : Nat) (h : pos = pre.length + k) :
    (pre ++ l)[pos]? = l[k]? := by
  subst h; exact getElem?_append_add pre l k

theorem read_vlq_encode (v : Nat) (hv : v ≤ 0xfffffff) (pre rest : List Nat) :
    read_vlq (pre ++ (vlqBytes v ++ rest)) pre.length
      = .ok (v, pre.length + (vlqBytes v).length) := by
  unfold read_vlq vlqBytes
  have e0 := vlqByte_zero v
  have e1 := vlqByte_one v
  have e2 := vlqByte_two v
  have e3 := vlqByte_three v
  split_ifs with h1 h2 h3
  · rw [e0, e1, e2, e3]
    rw [read_vlq_go_cont _ _ (v / 2097152 % 128) 2 0 (by omega)
        (by rw [getElem?_append_pos pre _ _ 0 (by omega)]; simp)]
    rw [read_vlq_go_cont _ _ (v / 16384 % 128) 1 _ (by omega)
        (by rw [getElem?_append_pos pre _ _ 1 rfl]; simp)]
    rw [read_vlq_go_cont _ _ (v / 128 % 128) 0 _ (by omega)
        (by rw [getElem?_append_pos pre _ _ 2 (by omega)]; simp)]
    rw [read_vlq_go_last _ _ (v % 128) _ _ (by omega)
        (by rw [getElem?_append_pos pre _ _ 3 (by omega)]; simp)]
    have hval : (((0 * 128 + v / 2097152 % 128) * 128 + v / 16384 % 128) * 128
        + v / 128 % 128) * 128 + v % 128 = v := by omega
    rw [hval]
    simp only [List.length_cons, List.length_nil]
  · rw [e0, e1, e2]
    rw [read_vlq_go_cont _ _ (v / 16384 % 128) 2 0 (by omega)
        (by rw [getElem?_append_pos pre _ _ 0 (by omega)]; simp)]
    rw [read_vlq_go_cont _ _ (v / 128 % 128) 1 _ (by omega)
        (by rw [getElem?_append_pos pre _ _ 1 rfl]; simp)]
    rw [read_vlq_go_last _ _ (v % 128) _ _ (by omega)
        (by rw [getElem?_append_pos pre _ _ 2 (by omega)]; simp)]
    have hval : ((0 * 128 + v / 16384 % 128) * 128 + v / 128 % 128) * 128 + v % 128 = v := by
      omega
    rw [hval]
    simp only [List.length_cons, List.length_nil]
  · rw [e0, e1]
    rw [read_vlq_go_cont _ _ (v / 128 % 128) 2 0 (by omega)
        (by rw [getElem?_append_pos pre _ _ 0 (by omega)]; simp)]
    rw [read_vlq_go_last _ _ (v % 128) _ _ (by omega)
        (by rw [getElem?_append_pos pre _ _ 1 rfl]; simp)]
    have hval : (0 * 128 + v / 128 % 128) * 128 + v % 128 = v := by omega
    rw [hval]
    simp only [List.length_cons, List.length_nil]
  · rw [e0]
    rw [read_vlq_go_last _ _ (v % 128) _ _ (by omega)
        (by rw [getElem?_append_pos pre _ _ 0 (by omega)]; simp)]
    have hval : 0 * 128 + v % 128 = v := by omega
    rw [hval]
    simp only [List.length_cons, List.length_nil]

theorem read_vlq_event_at (pre mid rest : List Nat) (hv : mid.length ≤ 0xfffffff) :
    read_vlq_event (pre ++ (vlqBytes mid.length ++ (mid ++ rest))) pre.length
      = .ok (mid, pre.length + (vlqBytes mid.length).length + mid.length) := by
  unfold read_vlq_event
  rw [read_vlq_encode mid.length hv pre (mid ++ rest)]
  have h1 : pre ++ (vlqBytes mid.length ++ (mid ++ rest))
      = (pre ++ vlqBytes mid.length) ++ (mid ++ rest) := by simp
  have h2 : pre.length + (vlqBytes mid.length).length
      = (pre ++ vlqBytes mid.length).length := by simp
  rw [h1, h2]
  show readExact ((pre ++ vlqBytes mid.length) ++ (mid ++ rest))
      (pre ++ vlqBytes mid.length).length mid.length
    = .ok (mid, (pre ++ vlqBytes mid.length).length + mid.length)
  rw [readExact_at]

/-! ## Helper lemmas: the writer stream -/

theorem write_all_append (data bs : List Nat) :
    WStream.write_all ⟨data, data.length⟩ bs = ⟨data ++ bs, data.length + bs.length⟩ := by
  unfold WStream.write_all
  simp

/-! ## Reader step lemmas for midi events -/

theorem readEvent_midi_explicit (pre t rest : List Nat) (ti d s ls : Nat)
    (hd : d ≤ 0xfffffff) (hs1 : 0x80 ≤ s) (hs2 : s < 0xF0)
    (ht : t.length + 1 = midiLen s) (htb : ∀ b ∈ t, b < 0x80) :
    readEvent (pre ++ (vlqBytes d ++ (s :: (t ++ rest)))) ti pre.length ⟨false, ls⟩
      = .ok (.midi d (s :: t), pre.length + (vlqBytes d).length + 1 + t.length,
          ⟨false, s⟩) := by
  have hvq := read_vlq_encode d hd pre (s :: (t ++ rest))
  have hlen : ((pre ++ vlqBytes d) ++ [s]).length = pre.length + (vlqBytes d).length + 1 := by
    simp only [List.length_append, List.length_cons, List.length_nil]
  have hget : (pre ++ (vlqBytes d ++ (s :: (t ++ rest))))[pre.length + (vlqBytes d).length]?
      = some s := by
    rw [show pre ++ (vlqBytes d ++ (s :: (t ++ rest)))
        = (pre ++ vlqBytes d) ++ (s :: (t ++ rest)) by simp]
    rw [getElem?_append_pos (pre ++ vlqBytes d) _ _ 0 (by simp)]
    simp
  have hex : readExact (pre ++ (vlqBytes d ++ (s :: (t ++ rest))))
      (pre.length + (vlqBytes d).length + 1) (midiLen s - 1)
      = .ok (t, pre.length + (vlqBytes d).length + 1 + t.length) := by
    rw [show midiLen s - 1 = t.length by omega]
    rw [show pre ++ (vlqBytes d ++ (s :: (t ++ rest)))
        = ((pre ++ vlqBytes d) ++ [s]) ++ (t ++ rest) by simp]
    rw [← hlen, readExact_at, hlen]
  simp only [readEvent, hvq, readU8_at _ (pre.length + (vlqBytes d).length) s hget,
    (show (0x80 ≤ s ∧ s < 0xF0) from ⟨hs1, hs2⟩), and_self, if_true, if_false,
    (show s ≠ 0xF0 by omega), (show s ≠ 0xF7 by omega), (show s ≠ 0xFF by omega),
    Bool.false_eq_true, ite_true, ite_false, Nat.sub_zero]
  rw [if_pos (show s ≠ 0 by omega)]
  simp only [hex, validate_u7_ok t htb]

theorem readEvent_midi_running (pre rest : List Nat) (t0 : Nat) (t1 : List Nat) (ti d s : Nat)
    (hd : d ≤ 0xfffffff) (hs1 : 0x80 ≤ s) (hs2 : s < 0xF0)
    (ht : t1.length + 2 = midiLen s) (ht0 : t0 < 0x80) (htb : ∀ b ∈ t1, b < 0x80) :
    readEvent (pre ++ (vlqBytes d ++ (t0 :: (t1 ++ rest)))) ti pre.length ⟨false, s⟩
      = .ok (.midi d (s :: t0 :: t1), pre.length + (vlqBytes d).length + 1 + t1.length,
          ⟨false, s⟩) := by
  have hvq := read_vlq_encode d hd pre (t0 :: (t1 ++ rest))
  have hlen : ((pre ++ vlqBytes d) ++ [t0]).length = pre.length + (vlqBytes d).length + 1 := by
    simp only [List.length_append, List.length_cons, List.length_nil]
  have hget : (pre ++ (vlqBytes d ++ (t0 :: (t1 ++ rest))))[pre.length + (vlqBytes d).length]?
      = some t0 := by
    rw [show pre ++ (vlqBytes d ++ (t0 :: (t1 ++ rest)))
        = (pre ++ vlqBytes d) ++ (t0 :: (t1 ++ rest)) by simp]
    rw [getElem?_append_pos (pre ++ vlqBytes d) _ _ 0 (by simp)]
    simp
  have hex : readExact (pre ++ (vlqBytes d ++ (t0 :: (t1 ++ rest))))
      (pre.length + (vlqBytes d).length + 1) (midiLen s - 1 - 1)
      = .ok (t1, pre.length + (vlqBytes d).length + 1 + t1.length) := by
    rw [show midiLen s - 1 - 1 = t1.length by omega]
    rw [show pre ++ (vlqBytes d ++ (t0 :: (t1 ++ rest)))
        = ((pre ++ vlqBytes d) ++ [t0]) ++ (t1 ++ rest) by simp]
    rw [← hlen, readExact_at, hlen]
  have hval : ∀ b ∈ t0 :: t1, b < 0x80 := by
    intro b hb
    rcases List.mem_cons.mp hb with rfl | h
    · exact ht0
    · exact htb b h
  simp only [readEvent, hvq, readU8_at _ (pre.length + (vlqBytes d).length) t0 hget,
    (show ¬0x80 ≤ t0 by omega), false_and, and_self, if_true, if_false,
    (show t0 ≠ 0xF0 by omega), (show t0 ≠ 0xF7 by omega), (show t0 ≠ 0xFF by omega),
    Bool.false_eq_true, ite_true, ite_false, Nat.sub_zero, Nat.add_zero]
  rw [if_pos (show s ≠ 0 by omega)]
  simp only [hex, validate_u7_ok (t0 :: t1) hval]

/-! ## Loop-level helpers -/

theorem readTrackGo_two (input : List Nat) (ti te pos pos1 : Nat)
    (st st1 st2 : TrackState) (cb1 cb2 : Callback)
    (h1 : readEvent input ti pos st = .ok (cb1, pos1, st1))
    (h2 : readEvent input ti pos1 st1 = .ok (cb2, te, st2))
    (hp : pos < te) (hp1 : pos1 < te) :
    readTrackGo input ti te 3 pos st = .ok ([cb1, cb2], te) := by
  conv_lhs => unfold readTrackGo
  rw [if_neg (show ¬pos = te by omega), if_neg (show ¬te < pos by omega)]
  simp only [h1]
  conv_lhs => unfold readTrackGo
  rw [if_neg (show ¬pos1 = te by omega), if_neg (show ¬te < pos1 by omega)]
  simp only [h2]
  conv_lhs => unfold readTrackGo
  rw [if_pos rfl]

theorem readTrackGo_ok_end (fuel : Nat) :
    ∀ (input : List Nat) (ti te pos : Nat) (st : TrackState) (cbs : List Callback) (fin : Nat),
      readTrackGo input ti te fuel pos st = .ok (cbs, fin) → fin = te := by
  induction fuel with
  | zero =>
    intro input ti te pos st cbs fin h
    simp [readTrackGo] at h
  | succ n ih =>
    intro input ti te pos st cbs fin h
    unfold readTrackGo at h
    by_cases hp : pos = te
    · rw [if_pos hp] at h
      simp only [Except.ok.injEq, Prod.mk.injEq] at h
      omega
    · rw [if_neg hp] at h
      by_cases hlt : te < pos
      · rw [if_pos hlt] at h
        simp at h
      · rw [if_neg hlt] at h
        cases he : readEvent input ti pos st with
        | error e => rw [he] at h; simp at h
        | ok v =>
          obtain ⟨cb, pos', st'⟩ := v
          simp only [he] at h
          cases hr : readTrackGo input ti te n pos' st' with
          | error e => simp only [hr] at h; simp at h
          | ok vr =>
            obtain ⟨cbs', fin'⟩ := vr
            simp only [hr] at h
            simp only [Except.ok.injEq, Prod.mk.injEq] at h
            have := ih input ti te pos' st' cbs' fin' hr
            omega

/-! ## Generalized single-byte VLQ step lemmas -/

theorem and80_large : ∀ c < 256, 128 ≤ c → c &&& 0x80 ≠ 0 := by decide

theorem read_vlq_go_step (input : List Nat) (pos c k value : Nat)
    (hc : c &&& 0x80 ≠ 0) (hget : input[pos]? = some c) :
    read_vlq_go input (k + 1) value pos
      = read_vlq_go input k ((value <<< 7) ||| (c &&& 0x7f)) (pos + 1) := by
  conv_lhs => unfold read_vlq_go
  simp only [readU8_at input pos c hget]
  rw [if_neg hc]

theorem read_vlq_go_stop (input : List Nat) (pos c k value : Nat)
    (hc : c &&& 0x80 = 0) (hget : input[pos]? = some c) :
    read_vlq_go input k value pos = .ok ((value <<< 7) ||| (c &&& 0x7f), pos + 1) := by
  conv_lhs => unfold read_vlq_go
  simp only [readU8_at input pos c hget]
  rw [if_pos hc]

theorem read_vlq_go_fail0 (input : List Nat) (pos c value : Nat)
    (hc : c &&& 0x80 ≠ 0) (hget : input[pos]? = some c) :
    read_vlq_go input 0 value pos = .error (.vlqTooLong c (pos + 1)) := by
  conv_lhs => unfold read_vlq_go
  simp only [readU8_at input pos c hget]
  rw [if_neg hc]

theorem read_vlq_go_none (input : List Nat) (pos k value : Nat)
    (hget : input[pos]? = none) :
    read_vlq_go input k value pos = .error .ioError := by
  conv_lhs => unfold read_vlq_go
  simp [readU8, hget]

/-! ## Claim theorems -/

/-- C3: the per-track event loop terminates cleanly exactly when the cursor
lands on the declared track end (consuming nothing further); a cursor
strictly past the end fails with TrackOverrun carrying the track index and
the exact cursor offset; and every successful run of the loop finishes with
its cursor exactly at the track end. -/
theorem c3_track_boundary :
    (∀ (input : List Nat) (ti te fuel : Nat) (st : TrackState),
        readTrackGo input ti te (fuel + 1) te st = .ok ([], te))
    ∧ (∀ (input : List Nat) (ti te fuel pos : Nat) (st : TrackState),
        te < pos →
          readTrackGo input ti te (fuel + 1) pos st = .error (.trackOverrun ti pos))
    ∧ (∀ (input : List Nat) (ti te fuel pos : Nat) (st : TrackState)
        (cbs : List Callback) (fin : Nat),
        readTrackGo input ti te fuel pos st = .ok (cbs, fin) → fin = te) := by
  refine ⟨?_, ?_, ?_⟩
  · intro input ti te fuel st
    conv_lhs => unfold readTrackGo
    rw [if_pos rfl]
  · intro input ti te fuel pos st h
    conv_lhs => unfold readTrackGo
    rw [if_neg (by omega), if_pos h]
  · intro input ti te fuel pos st cbs fin h
    exact readTrackGo_ok_end fuel input ti te pos st cbs fin h

theorem c3_witness :
    readTrackGo [] 0 7 1 7 ⟨false, 0⟩ = .ok ([], 7)
    ∧ readTrackGo [] 0 3 1 4 ⟨false, 0⟩ = .error (.trackOverrun 0 4)
    ∧ (4 : Nat) = 4 :=
  ⟨c3_track_boundary.1 [] 0 7 0 ⟨false, 0⟩,
   c3_track_boundary.2.1 [] 0 3 0 4 ⟨false, 0⟩ (by decide),
   c3_track_boundary.2.2 [0x00, 0x90, 60, 100] 0 4 2 0 ⟨false, 0⟩
     [.midi 0 [0x90, 60, 100]] 4 (by decide)⟩

/-- C5: VLQ decoding fails with VlqTooLong, carrying the offending byte and
the stream position after it, exactly when the first four bytes read all
have the continuation bit set (so that a fifth chain byte would be needed);
every chain of 4 or fewer total bytes whose final byte has the high bit
clear decodes successfully. -/
theorem c5_vlq_too_long :
    (∀ (pre rest : List Nat) (c1 c2 c3 c4 : Nat),
        128 ≤ c1 → c1 < 256 → 128 ≤ c2 → c2 < 256 → 128 ≤ c3 → c3 < 256 →
        128 ≤ c4 → c4 < 256 →
          read_vlq (pre ++ ([c1, c2, c3, c4] ++ rest)) pre.length
            = .error (.vlqTooLong c4 (pre.length + 4)))
    ∧ (∀ (pre rest : List Nat) (b : Nat), b < 128 →
        ∃ v, read_vlq (pre ++ ([b] ++ rest)) pre.length = .ok (v, pre.length + 1))
    ∧ (∀ (pre rest : List Nat) (c1 b : Nat), 128 ≤ c1 → c1 < 256 → b < 128 →
        ∃ v, read_vlq (pre ++ ([c1, b] ++ rest)) pre.length = .ok (v, pre.length + 2))
    ∧ (∀ (pre rest : List Nat) (c1 c2 b : Nat),
        128 ≤ c1 → c1 < 256 → 128 ≤ c2 → c2 < 256 → b < 128 →
        ∃ v, read_vlq (pre ++ ([c1, c2, b] ++ rest)) pre.length = .ok (v, pre.length + 3))
    ∧ (∀ (pre rest : List Nat) (c1 c2 c3 b : Nat),
        128 ≤ c1 → c1 < 256 → 128 ≤ c2 → c2 < 256 → 128 ≤ c3 → c3 < 256 → b < 128 →
        ∃ v, read_vlq (pre ++ ([c1, c2, c3, b] ++ rest)) pre.length = .ok (v, pre.length + 4))
    ∧ (∀ (input : List Nat) (pos b p : Nat),
        read_vlq input pos = .error (.vlqTooLong b p) →
          p = pos + 4 ∧ input[pos + 3]? = some b ∧ b &&& 0x80 ≠ 0
          ∧ ∃ a1 a2 a3, input[pos]? = some a1 ∧ input[pos + 1]? = some a2
              ∧ input[pos + 2]? = some a3
              ∧ a1 &&& 0x80 ≠ 0 ∧ a2 &&& 0x80 ≠ 0 ∧ a3 &&& 0x80 ≠ 0) := by
  refine ⟨?_, ?_, ?_, ?_, ?_, ?_⟩
  · intro pre rest c1 c2 c3 c4 h1 h1' h2 h2' h3 h3' h4 h4'
    unfold read_vlq
    rw [read_vlq_go_step _ _ c1 2 _ (and80_large c1 h1' h1)
        (by rw [getElem?_append_pos pre _ _ 0 (by omega)]; simp)]
    rw [read_vlq_go_step _ _ c2 1 _ (and80_large c2 h2' h2)
        (by rw [getElem?_append_pos pre _ _ 1 rfl]; simp)]
    rw [read_vlq_go_step _ _ c3 0 _ (and80_large c3 h3' h3)
        (by rw [getElem?_append_pos pre _ _ 2 (by omega)]; simp)]
    rw [read_vlq_go_fail0 _ _ c4 _ (and80_large c4 h4' h4)
        (by rw [getElem?_append_pos pre _ _ 3 (by omega)]; simp)]
  · intro pre rest b hb
    unfold read_vlq
    exact ⟨_, read_vlq_go_stop _ _ b 3 0 (and80_small b hb)
      (by rw [getElem?_append_pos pre _ _ 0 (by omega)]; simp)⟩
  · intro pre rest c1 b h1 h1' hb
    unfold read_vlq
    rw [read_vlq_go_step _ _ c1 2 _ (and80_large c1 h1' h1)
        (by rw [getElem?_append_pos pre _ _ 0 (by omega)]; simp)]
    exact ⟨_, read_vlq_go_stop _ _ b 2 _ (and80_small b hb)
      (by rw [getElem?_append_pos pre _ _ 1 rfl]; simp)⟩
  · intro pre rest c1 c2 b h1 h1' h2 h2' hb
    unfold read_vlq
    rw [read_vlq_go_step _ _ c1 2 _ (and80_large c1 h1' h1)
        (by rw [getElem?_append_pos pre _ _ 0 (by omega)]; simp)]
    rw [read_vlq_go_step _ _ c2 1 _ (and80_large c2 h2' h2)
        (by rw [getElem?_append_pos pre _ _ 1 rfl]; simp)]
    exact ⟨_, read_vlq_go_stop _ _ b 1 _ (and80_small b hb)
      (by rw [getElem?_append_pos pre _ _ 2 (by omega)]; simp)⟩
  · intro pre rest c1 c2 c3 b h1 h1' h2 h2' h3 h3' hb
    unfold read_vlq
    rw [read_vlq_go_step _ _ c1 2 _ (and80_large c1 h1' h1)
        (by rw [getElem?_append_pos pre _ _ 0 (by omega)]; simp)]
    rw [read_vlq_go_step _ _ c2 1 _ (and80_large c2 h2' h2)
        (by rw [getElem?_append_pos pre _ _ 1 rfl]; simp)]
    rw [read_vlq_go_step _ _ c3 0 _ (and80_large c3 h3' h3)
        (by rw [getElem?_append_pos pre _ _ 2 (by omega)]; simp)]
    exact ⟨_, read_vlq_go_stop _ _ b 0 _ (and80_small b hb)
      (by rw [getElem?_append_pos pre _ _ 3 (by omega)]; simp)⟩
  · intro input pos b p h
    unfold read_vlq at h
    cases hg1 : input[pos]? with
    | none =>
      rw [read_vlq_go_none input pos 3 0 hg1] at h
      simp at h
    | some a1 =>
      by_cases ha1 : a1 &&& 0x80 = 0
      · rw [read_vlq_go_stop input pos a1 3 0 ha1 hg1] at h
        simp at h
      · rw [read_vlq_go_step input pos a1 2 0 ha1 hg1] at h
        cases hg2 : input[pos + 1]? with
        | none =>
          rw [read_vlq_go_none input (pos + 1) 2 _ hg2] at h
          simp at h
        | some a2 =>
          by_cases ha2 : a2 &&& 0x80 = 0
          · rw [read_vlq_go_stop input (pos + 1) a2 2 _ ha2 hg2] at h
            simp at h
          · rw [read_vlq_go_step input (pos + 1) a2 1 _ ha2 hg2] at h
            cases hg3 : input[pos + 1 + 1]? with
            | none =>
              rw [read_vlq_go_none input (pos + 1 + 1) 1 _ hg3] at h
              simp at h
            | some a3 =>
              by_cases ha3 : a3 &&& 0x80 = 0
              · rw [read_vlq_go_stop input (pos + 1 + 1) a3 1 _ ha3 hg3] at h
                simp at h
              · rw [read_vlq_go_step input (pos + 1 + 1) a3 0 _ ha3 hg3] at h
                cases hg4 : input[pos + 1 + 1 + 1]? with
                | none =>
                  rw [read_vlq_go_none input (pos + 1 + 1 + 1) 0 _ hg4] at h
                  simp at h
                | some a4 =>
                  by_cases ha4 : a4 &&& 0x80 = 0
                  · rw [read_vlq_go_stop input (pos + 1 + 1 + 1) a4 0 _ ha4 hg4] at h
                    simp at h
                  · rw [read_vlq_go_fail0 input (pos + 1 + 1 + 1) a4 _ ha4 hg4] at h
                    simp only [Except.error.injEq, Err.vlqTooLong.injEq] at h
                    obtain ⟨hb4, hp4⟩ := h
                    subst hb4
                    exact ⟨by omega, rfl, ha4, a1, a2, a3, rfl, rfl, rfl, ha1, ha2, ha3⟩

theorem c5_witness :
    read_vlq ([] ++ ([0x81, 0x82, 0x83, 0x84] ++ [])) ([] : List Nat).length
        = .error (.vlqTooLong 0x84 (([] : List Nat).length + 4))
    ∧ (∃ v, read_vlq ([] ++ ([0x82, 0x05] ++ [])) ([] : List Nat).length
        = .ok (v, ([] : List Nat).length + 2))
    ∧ ((4 : Nat) = 0 + 4) :=
  ⟨c5_vlq_too_long.1 [] [] 0x81 0x82 0x83 0x84 (by decide) (by decide) (by decide)
      (by decide) (by decide) (by decide) (by decide) (by decide),
   c5_vlq_too_long.2.2.1 [] [] 0x82 0x05 (by decide) (by decide) (by decide),
   (c5_vlq_too_long.2.2.2.2.2 [0x81, 0x82, 0x83, 0x84] 0 0x84 4 (by decide)).1⟩

/-- C7: for every v ≤ 0x0FFFFFFF, decoding the bytes emitted by the
writer's VLQ encoder yields v back (advancing the cursor past exactly those
bytes); the encoder picks the byte count by magnitude threshold
(≤ 0x7F → 1, ≤ 0x3FFF → 2, ≤ 0x1FFFFF → 3, else 4); and the continuation
bit is set on every byte but the final one, which has it clear. -/
theorem c7_vlq_roundtrip (v : Nat) (hv : v ≤ 0xfffffff) (pre rest : List Nat) :
    read_vlq (pre ++ (vlqBytes v ++ rest)) pre.length
      = .ok (v, pre.length + (vlqBytes v).length)
    ∧ (vlqBytes v).length
      = (if v ≤ 0x7f then 1 else if v ≤ 0x3fff then 2 else if v ≤ 0x1fffff then 3 else 4)
    ∧ (∀ b ∈ (vlqBytes v).dropLast, 128 ≤ b)
    ∧ (∀ b, (vlqBytes v).getLast? = some b → b < 128) := by
  have e0 := vlqByte_zero v
  have e1 := vlqByte_one v
  have e2 := vlqByte_two v
  have e3 := vlqByte_three v
  refine ⟨read_vlq_encode v hv pre rest, ?_, ?_, ?_⟩
  · unfold vlqBytes
    split_ifs <;> simp <;> omega
  · unfold vlqBytes
    split_ifs with h1 h2 h3
    · intro b hb
      simp only [List.dropLast, List.mem_cons, List.not_mem_nil, or_false] at hb
      rcases hb with rfl | rfl | rfl
      · omega
      · omega
      · omega
    · intro b hb
      simp only [List.dropLast, List.mem_cons, List.not_mem_nil, or_false] at hb
      rcases hb with rfl | rfl
      · omega
      · omega
    · intro b hb
      simp only [List.dropLast, List.mem_cons, List.not_mem_nil, or_false] at hb
      rcases hb with rfl
      omega
    · intro b hb
      simp at hb
  · unfold vlqBytes
    split_ifs with h1 h2 h3 <;>
      · intro b hb
        simp at hb
        omega

theorem c7_witness :
    read_vlq ([] ++ (vlqBytes 0x12345 ++ [])) ([] : List Nat).length
        = .ok (0x12345, ([] : List Nat).length + (vlqBytes 0x12345).length)
    ∧ (vlqBytes 0x12345).length
      = (if 0x12345 ≤ 0x7f then 1 else if 0x12345 ≤ 0x3fff then 2
          else if 0x12345 ≤ 0x1fffff then 3 else 4)
    ∧ (∀ b ∈ (vlqBytes 0x12345).dropLast, 128 ≤ b)
    ∧ (∀ b, (vlqBytes 0x12345).getLast? = some b → b < 128) :=
  c7_vlq_roundtrip 0x12345 (by decide) [] []

/-- C10: a 0xF7-prefixed sysex packet with an empty payload never ends
sysex continuation: in the reader, a continuation packet whose VLQ length
is 0 leaves sysex_continuation set (while still emitting a sysex callback
with empty data), and in the writer, sysex_event called with data [0xF7]
leaves sysex_continuation set. -/
theorem c10_empty_continuation :
    (∀ (pre rest : List Nat) (ti d ls : Nat), d ≤ 0xfffffff →
        readEvent (pre ++ (vlqBytes d ++ ([0xF7, 0x00] ++ rest))) ti pre.length ⟨true, ls⟩
          = .ok (.sysex d [], pre.length + (vlqBytes d).length + 2, ⟨true, 0⟩))
    ∧ (∀ (w : WriterState) (d : Nat), w.sysex_continuation = true →
        (TrackWriter.sysex_event w d [0xF7]).sysex_continuation = true) := by
  constructor
  · intro pre rest ti d ls hd
    have hvq := read_vlq_encode d hd pre ([0xF7, 0x00] ++ rest)
    have hget : (pre ++ (vlqBytes d ++ ([0xF7, 0x00] ++ rest)))[pre.length
        + (vlqBytes d).length]? = some 0xF7 := by
      rw [show pre ++ (vlqBytes d ++ ([0xF7, 0x00] ++ rest))
          = (pre ++ vlqBytes d) ++ ([0xF7, 0x00] ++ rest) by simp]
      rw [getElem?_append_pos (pre ++ vlqBytes d) _ _ 0 (by simp)]
      simp
    have hget0 : (pre ++ (vlqBytes d ++ ([0xF7, 0x00] ++ rest)))[pre.length
        + (vlqBytes d).length + 1]? = some 0x00 := by
      rw [show pre ++ (vlqBytes d ++ ([0xF7, 0x00] ++ rest))
          = (pre ++ vlqBytes d) ++ ([0xF7, 0x00] ++ rest) by simp]
      rw [getElem?_append_pos (pre ++ vlqBytes d) _ _ 1 (by simp)]
      simp
    have hev : read_vlq_event (pre ++ (vlqBytes d ++ ([0xF7, 0x00] ++ rest)))
        (pre.length + (vlqBytes d).length + 1)
        = .ok ([], pre.length + (vlqBytes d).length + 2) := by
      unfold read_vlq_event read_vlq
      rw [read_vlq_go_stop _ _ 0x00 3 0 (by decide) hget0]
      show readExact _ (pre.length + (vlqBytes d).length + 1 + 1) 0 = _
      unfold readExact
      rw [if_pos (by simp; omega)]
      simp
    simp only [readEvent, hvq, readU8_at _ (pre.length + (vlqBytes d).length) 0xF7 hget,
      hev, ne_eq, not_true_eq_false, if_false, ite_true, ite_false,
      List.getLast?, validate_u7]
    simp
  · intro w d hw
    simp [TrackWriter.sysex_event, TrackWriter.vlq, hw]

theorem c10_witness :
    readEvent ([] ++ (vlqBytes 0 ++ ([0xF7, 0x00] ++ [])))
        0 ([] : List Nat).length ⟨true, 5⟩
      = .ok (.sysex 0 [], ([] : List Nat).length + (vlqBytes 0).length + 2, ⟨true, 0⟩)
    ∧ (TrackWriter.sysex_event ⟨⟨[], 0⟩, 0, 0, 0, 0, true⟩ 0 [0xF7]).sysex_continuation
        = true :=
  ⟨c10_empty_continuation.1 [] [] 0 0 5 (by decide),
   c10_empty_continuation.2 ⟨⟨[], 0⟩, 0, 0, 0, 0, true⟩ 0 rfl⟩

/-! ## Writer-side byte computations for midi events -/

theorem write_all_append2 (d bs : List Nat) (p : Nat) (h : p = d.length) :
    WStream.write_all ⟨d, p⟩ bs = ⟨d ++ bs, p + bs.length⟩ := by
  subst h; exact write_all_append d bs

theorem vlqBytes_length_pos (v : Nat) : 0 < (vlqBytes v).length := by
  unfold vlqBytes; split_ifs <;> simp

theorem midi_event_explicit (w : WriterState) (delta : Nat) (data : List Nat)
    (hpos : w.stream.pos = w.stream.data.length) (hne : data.headI ≠ w.last_status) :
    (TrackWriter.midi_event w delta data).stream.data
        = w.stream.data ++ (vlqBytes delta ++ data)
    ∧ (TrackWriter.midi_event w delta data).stream.pos
        = (TrackWriter.midi_event w delta data).stream.data.length
    ∧ (TrackWriter.midi_event w delta data).last_status = data.headI := by
  obtain ⟨⟨sd, sp⟩, tcp, tc, tlp, ls, sc⟩ := w
  simp only at hpos hne
  subst hpos
  unfold TrackWriter.midi_event TrackWriter.raw_event TrackWriter.vlq
  rw [if_neg hne]
  simp only [write_all_append2 sd (vlqBytes delta) sd.length rfl,
    write_all_append2 (sd ++ vlqBytes delta) data (sd.length + (vlqBytes delta).length)
      (by simp)]
  simp [List.append_assoc]
  omega

theorem midi_event_compressed (w : WriterState) (delta : Nat) (data : List Nat)
    (hpos : w.stream.pos = w.stream.data.length) (heq : data.headI = w.last_status) :
    (TrackWriter.midi_event w delta data).stream.data
        = w.stream.data ++ (vlqBytes delta ++ data.drop 1)
    ∧ (TrackWriter.midi_event w delta data).stream.pos
        = (TrackWriter.midi_event w delta data).stream.data.length
    ∧ (TrackWriter.midi_event w delta data).last_status = w.last_status := by
  obtain ⟨⟨sd, sp⟩, tcp, tc, tlp, ls, sc⟩ := w
  simp only at hpos heq
  subst hpos
  unfold TrackWriter.midi_event TrackWriter.raw_event TrackWriter.vlq
  rw [if_pos heq]
  simp only [write_all_append2 sd (vlqBytes delta) sd.length rfl,
    write_all_append2 (sd ++ vlqBytes delta) (data.drop 1)
      (sd.length + (vlqBytes delta).length) (by simp)]
  simp [List.append_assoc]
  omega

/-! ## Two consecutive midi events through the reader -/

theorem read_two_midi_expl (pre t1 t2 : List Nat) (ti d1 d2 s s2 : Nat)
    (hd1 : d1 ≤ 0xfffffff) (hd2 : d2 ≤ 0xfffffff)
    (hs1 : 0x80 ≤ s) (hs2 : s < 0xF0) (hv1 : 0x80 ≤ s2) (hv2 : s2 < 0xF0)
    (ht1 : t1.length + 1 = midiLen s) (ht2 : t2.length + 1 = midiLen s2)
    (hb1 : ∀ b ∈ t1, b < 0x80) (hb2 : ∀ b ∈ t2, b < 0x80) :
    readTrackGo (pre ++ (vlqBytes d1 ++ (s :: (t1 ++ (vlqBytes d2 ++ (s2 :: t2)))))) ti
        (pre.length + (vlqBytes d1).length + 1 + t1.length
          + (vlqBytes d2).length + 1 + t2.length) 3 pre.length ⟨false, 0⟩
      = .ok ([.midi d1 (s :: t1), .midi d2 (s2 :: t2)],
          pre.length + (vlqBytes d1).length + 1 + t1.length
            + (vlqBytes d2).length + 1 + t2.length) := by
  have h1 := readEvent_midi_explicit pre t1 (vlqBytes d2 ++ (s2 :: t2)) ti d1 s 0
    hd1 hs1 hs2 ht1 hb1
  have h2 := readEvent_midi_explicit (pre ++ vlqBytes d1 ++ (s :: t1)) t2 [] ti d2 s2 s
    hd2 hv1 hv2 ht2 hb2
  rw [show (pre ++ vlqBytes d1 ++ (s :: t1)) ++ (vlqBytes d2 ++ (s2 :: (t2 ++ [])))
      = pre ++ (vlqBytes d1 ++ (s :: (t1 ++ (vlqBytes d2 ++ (s2 :: t2))))) by simp] at h2
  rw [show (pre ++ vlqBytes d1 ++ (s :: t1)).length
      = pre.length + (vlqBytes d1).length + 1 + t1.length by
        simp only [List.length_append, List.length_cons]; omega] at h2
  exact readTrackGo_two _ ti _ pre.length _ ⟨false, 0⟩ ⟨false, s⟩ ⟨false, s2⟩ _ _ h1 h2
    (by have := vlqBytes_length_pos d1; have := vlqBytes_length_pos d2; omega)
    (by have := vlqBytes_length_pos d2; omega)

theorem read_two_midi_run (pre t1 t2 : List Nat) (ti d1 d2 s : Nat)
    (hd1 : d1 ≤ 0xfffffff) (hd2 : d2 ≤ 0xfffffff)
    (hs1 : 0x80 ≤ s) (hs2 : s < 0xF0)
    (ht1 : t1.length + 1 = midiLen s) (ht2 : t2.length + 1 = midiLen s)
    (hb1 : ∀ b ∈ t1, b < 0x80) (hb2 : ∀ b ∈ t2, b < 0x80) :
    readTrackGo (pre ++ (vlqBytes d1 ++ (s :: (t1 ++ (vlqBytes d2 ++ t2))))) ti
        (pre.length + (vlqBytes d1).length + 1 + t1.length
          + (vlqBytes d2).length + t2.length) 3 pre.length ⟨false, 0⟩
      = .ok ([.midi d1 (s :: t1), .midi d2 (s :: t2)],
          pre.length + (vlqBytes d1).length + 1 + t1.length
            + (vlqBytes d2).length + t2.length) := by
  obtain ⟨t20, t21, rfl⟩ : ∃ a l, t2 = a :: l := by
    cases t2 with
    | nil =>
      exfalso
      simp only [List.length_nil] at ht2
      unfold midiLen at ht2
      split_ifs at ht2 <;> omega
    | cons a l => exact ⟨a, l, rfl⟩
  have h1 := readEvent_midi_explicit pre t1 (vlqBytes d2 ++ (t20 :: t21)) ti d1 s 0
    hd1 hs1 hs2 ht1 hb1
  have h2 := readEvent_midi_running (pre ++ vlqBytes d1 ++ (s :: t1)) [] t20 t21 ti d2 s
    hd2 hs1 hs2 (by simp at ht2; omega) (hb2 t20 (by simp))
    (fun b hb => hb2 b (by simp [hb]))
  rw [show (pre ++ vlqBytes d1 ++ (s :: t1)) ++ (vlqBytes d2 ++ (t20 :: (t21 ++ [])))
      = pre ++ (vlqBytes d1 ++ (s :: (t1 ++ (vlqBytes d2 ++ (t20 :: t21))))) by simp] at h2
  rw [show (pre ++ vlqBytes d1 ++ (s :: t1)).length
      = pre.length + (vlqBytes d1).length + 1 + t1.length by
        simp only [List.length_append, List.length_cons]; omega] at h2
  rw [show pre.length + (vlqBytes d1).length + 1 + t1.length + (vlqBytes d2).length + 1
        + t21.length
      = pre.length + (vlqBytes d1).length + 1 + t1.length + (vlqBytes d2).length
        + (t20 :: t21).length by simp only [List.length_cons]; omega] at h2
  exact readTrackGo_two _ ti _ pre.length _ ⟨false, 0⟩ ⟨false, s⟩ ⟨false, s⟩ _ _ h1 h2
    (by have := vlqBytes_length_pos d1; have := vlqBytes_length_pos d2; omega)
    (by have := vlqBytes_length_pos d2; simp only [List.length_cons]; omega)

/-- C6: writing two consecutive midi events with the same status byte
produces output exactly one byte shorter (the second status byte is
suppressed) than writing the same events with differing status bytes, and
both encoded forms decode through the reader's track loop to exactly the
midi_event callbacks for the events that were written (the compressed form
loses nothing: the reader reconstructs the full status byte). -/
theorem c6_running_status (w : WriterState) (ti d1 d2 s s2 : Nat) (t1 t2 : List Nat)
    (wA wB : WriterState)
    (hpos : w.stream.pos = w.stream.data.length) (hlast : w.last_status = 0)
    (hd1 : d1 ≤ 0xfffffff) (hd2 : d2 ≤ 0xfffffff)
    (hs1 : 0x80 ≤ s) (hs2 : s < 0xF0) (hv1 : 0x80 ≤ s2) (hv2 : s2 < 0xF0) (hne : s2 ≠ s)
    (ht1 : t1.length + 1 = midiLen s) (ht2 : t2.length + 1 = midiLen s)
    (hm : midiLen s2 = midiLen s)
    (hb1 : ∀ b ∈ t1, b < 0x80) (hb2 : ∀ b ∈ t2, b < 0x80)
    (hA : wA = TrackWriter.midi_event (TrackWriter.midi_event w d1 (s :: t1)) d2 (s :: t2))
    (hB : wB = TrackWriter.midi_event (TrackWriter.midi_event w d1 (s :: t1)) d2 (s2 :: t2)) :
    wB.stream.data.length = wA.stream.data.length + 1
    ∧ readTrackGo wA.stream.data ti wA.stream.data.length 3 w.stream.data.length ⟨false, 0⟩
        = .ok ([.midi d1 (s :: t1), .midi d2 (s :: t2)], wA.stream.data.length)
    ∧ readTrackGo wB.stream.data ti wB.stream.data.length 3 w.stream.data.length ⟨false, 0⟩
        = .ok ([.midi d1 (s :: t1), .midi d2 (s2 :: t2)], wB.stream.data.length) := by
  obtain ⟨e1d, e1p, e1l⟩ := midi_event_explicit w d1 (s :: t1) hpos
    (by simp only [List.headI]; omega)
  obtain ⟨e2d, e2p, e2l⟩ := midi_event_compressed (TrackWriter.midi_event w d1 (s :: t1))
    d2 (s :: t2) e1p (by rw [e1l]; simp only [List.headI])
  obtain ⟨e3d, e3p, e3l⟩ := midi_event_explicit (TrackWriter.midi_event w d1 (s :: t1))
    d2 (s2 :: t2) e1p (by rw [e1l]; simp only [List.headI]; omega)
  subst hA hB
  have hAd : (TrackWriter.midi_event (TrackWriter.midi_event w d1 (s :: t1)) d2
        (s :: t2)).stream.data
      = w.stream.data ++ (vlqBytes d1 ++ (s :: (t1 ++ (vlqBytes d2 ++ t2)))) := by
    rw [e2d, e1d]
    simp [List.append_assoc]
  have hBd : (TrackWriter.midi_event (TrackWriter.midi_event w d1 (s :: t1)) d2
        (s2 :: t2)).stream.data
      = w.stream.data ++ (vlqBytes d1 ++ (s :: (t1 ++ (vlqBytes d2 ++ (s2 :: t2))))) := by
    rw [e3d, e1d]
    simp [List.append_assoc]
  refine ⟨?_, ?_, ?_⟩
  · rw [hAd, hBd]
    simp only [List.length_append, List.length_cons]
    omega
  · rw [hAd]
    rw [show (w.stream.data ++ (vlqBytes d1 ++ (s :: (t1 ++ (vlqBytes d2 ++ t2))))).length
        = w.stream.data.length + (vlqBytes d1).length + 1 + t1.length
          + (vlqBytes d2).length + t2.length by
      simp only [List.length_append, List.length_cons]; omega]
    exact read_two_midi_run w.stream.data t1 t2 ti d1 d2 s hd1 hd2 hs1 hs2 ht1 ht2 hb1 hb2
  · rw [hBd]
    rw [show (w.stream.data
          ++ (vlqBytes d1 ++ (s :: (t1 ++ (vlqBytes d2 ++ (s2 :: t2)))))).length
        = w.stream.data.length + (vlqBytes d1).length + 1 + t1.length
          + (vlqBytes d2).length + 1 + t2.length by
      simp only [List.length_append, List.length_cons]; omega]
    exact read_two_midi_expl w.stream.data t1 t2 ti d1 d2 s s2 hd1 hd2 hs1 hs2 hv1 hv2
      ht1 (by rw [hm]; exact ht2) hb1 hb2

theorem c6_witness :
    ((TrackWriter.midi_event (TrackWriter.midi_event ⟨⟨[], 0⟩, 0, 0, 0, 0, false⟩ 0
        (0x90 :: [60, 100])) 96 (0x91 :: [60, 0])).stream.data.length
      = (TrackWriter.midi_event (TrackWriter.midi_event ⟨⟨[], 0⟩, 0, 0, 0, 0, false⟩ 0
          (0x90 :: [60, 100])) 96 (0x90 :: [60, 0])).stream.data.length + 1)
    ∧ readTrackGo (TrackWriter.midi_event (TrackWriter.midi_event
          ⟨⟨[], 0⟩, 0, 0, 0, 0, false⟩ 0 (0x90 :: [60, 100])) 96
          (0x90 :: [60, 0])).stream.data 0
        (TrackWriter.midi_event (TrackWriter.midi_event ⟨⟨[], 0⟩, 0, 0, 0, 0, false⟩ 0
          (0x90 :: [60, 100])) 96 (0x90 :: [60, 0])).stream.data.length 3
        (⟨⟨[], 0⟩, 0, 0, 0, 0, false⟩ : WriterState).stream.data.length ⟨false, 0⟩
      = .ok ([.midi 0 (0x90 :: [60, 100]), .midi 96 (0x90 :: [60, 0])],
          (TrackWriter.midi_event (TrackWriter.midi_event ⟨⟨[], 0⟩, 0, 0, 0, 0, false⟩ 0
            (0x90 :: [60, 100])) 96 (0x90 :: [60, 0])).stream.data.length)
    ∧ readTrackGo (TrackWriter.midi_event (TrackWriter.midi_event
          ⟨⟨[], 0⟩, 0, 0, 0, 0, false⟩ 0 (0x90 :: [60, 100])) 96
          (0x91 :: [60, 0])).stream.data 0
        (TrackWriter.midi_event (TrackWriter.midi_event ⟨⟨[], 0⟩, 0, 0, 0, 0, false⟩ 0
          (0x90 :: [60, 100])) 96 (0x91 :: [60, 0])).stream.data.length 3
        (⟨⟨[], 0⟩, 0, 0, 0, 0, false⟩ : WriterState).stream.data.length ⟨false, 0⟩
      = .ok ([.midi 0 (0x90 :: [60, 100]), .midi 96 (0x91 :: [60, 0])],
          (TrackWriter.midi_event (TrackWriter.midi_event ⟨⟨[], 0⟩, 0, 0, 0, 0, false⟩ 0
            (0x90 :: [60, 100])) 96 (0x91 :: [60, 0])).stream.data.length) :=
  c6_running_status ⟨⟨[], 0⟩, 0, 0, 0, 0, false⟩ 0 0 96 0x90 0x91 [60, 100] [60, 0] _ _
    rfl rfl (by decide) (by decide) (by decide) (by decide) (by decide) (by decide)
    (by decide) (by decide) (by decide) (by decide)
    (by decide) (by decide) rfl rfl

/-! ## The SMPTE fps decoding as plain arithmetic -/

theorem u8cast_fps (d : Nat) (h1 : d < 65536) (h2 : 0x8000 ≤ d) :
    u8cast (-(Int.fdiv (i16cast d) 256)) = 256 - d / 256 := by
  unfold i16cast u8cast
  rw [if_neg (by omega)]
  rw [Int.fdiv_eq_ediv _ (by decide)]
  omega

/-- C8: the division field round-trips through the header codec — writing
PPQN(480) and reading it back yields PPQN(480), and SMPTE{fps 25, tpf 40}
round-trips through its signed-byte packing; on read, a division word with
its sign bit set decodes to SMPTE with fps = 256 - high byte, succeeding
exactly when that fps is in {24, 25, 29, 30} and failing with the bad-SMPTE
error otherwise. -/
theorem c8_division_roundtrip :
    read (write Format.Single (Division.PPQN 480)).stream.data
        = .ok [.header Format.Single 0 (Division.PPQN 480)]
    ∧ read (write Format.Single (Division.SMPTE 25 40)).stream.data
        = .ok [.header Format.Single 0 (Division.SMPTE 25 40)]
    ∧ (∀ d : Nat, d < 65536 → 0x8000 ≤ d →
        (decodeDivision d = .ok (.SMPTE (256 - d / 256) (d % 256))
            ↔ (256 - d / 256 = 24 ∨ 256 - d / 256 = 25 ∨ 256 - d / 256 = 29
                ∨ 256 - d / 256 = 30))
        ∧ ((∃ x, decodeDivision d = .error (.badSmpteFps x))
            ↔ ¬(256 - d / 256 = 24 ∨ 256 - d / 256 = 25 ∨ 256 - d / 256 = 29
                ∨ 256 - d / 256 = 30))) := by
  refine ⟨by decide, by decide, ?_⟩
  intro d h1 h2
  have hneg : i16cast d < 0 := by
    unfold i16cast
    rw [if_neg (by omega)]
    omega
  simp only [decodeDivision, u8cast_fps d h1 h2]
  rw [if_pos hneg]
  constructor
  · constructor
    · intro h
      by_contra hc
      rw [if_pos (by push_neg at hc; exact ⟨hc.1, hc.2.1, hc.2.2.1, hc.2.2.2⟩)] at h
      simp at h
    · intro hc
      rw [if_neg (by tauto)]
  · constructor
    · rintro ⟨x, hx⟩ hc
      rw [if_neg (by tauto)] at hx
      simp at hx
    · intro hc
      rw [if_pos (by push_neg at hc; exact ⟨hc.1, hc.2.1, hc.2.2.1, hc.2.2.2⟩)]
      exact ⟨_, rfl⟩

theorem c8_witness :
    (decodeDivision 0xE728 = .ok (.SMPTE (256 - 0xE728 / 256) (0xE728 % 256))
        ↔ (256 - 0xE728 / 256 = 24 ∨ 256 - 0xE728 / 256 = 25 ∨ 256 - 0xE728 / 256 = 29
            ∨ 256 - 0xE728 / 256 = 30))
    ∧ ((∃ x, decodeDivision 0xB428 = .error (.badSmpteFps x))
        ↔ ¬(256 - 0xB428 / 256 = 24 ∨ 256 - 0xB428 / 256 = 25 ∨ 256 - 0xB428 / 256 = 29
            ∨ 256 - 0xB428 / 256 = 30)) :=
  ⟨(c8_division_roundtrip.2.2 0xE728 (by decide) (by decide)).1,
   (c8_division_roundtrip.2.2 0xB428 (by decide) (by decide)).2⟩

/-! ## Overwriting two bytes in place -/

theorem overwrite2_getElem (data : List Nat) (p x y : Nat) (h : p + 2 ≤ data.length) :
    ((data.take p ++ [x, y] ++ data.drop (p + 2))[p]? = some x)
    ∧ ((data.take p ++ [x, y] ++ data.drop (p + 2))[p + 1]? = some y)
    ∧ (∀ i, i ≠ p → i ≠ p + 1 →
        (data.take p ++ [x, y] ++ data.drop (p + 2))[i]? = data[i]?) := by
  have hlt : (data.take p).length = p := by rw [List.length_take]; omega
  have hassoc : data.take p ++ [x, y] ++ data.drop (p + 2)
      = data.take p ++ ([x, y] ++ data.drop (p + 2)) := by simp
  refine ⟨?_, ?_, ?_⟩
  · rw [hassoc, getElem?_append_pos _ _ p 0 (by omega)]
    simp
  · rw [hassoc, getElem?_append_pos _ _ (p + 1) 1 (by omega)]
    simp
  · intro i hi1 hi2
    rcases Nat.lt_or_ge i p with hip | hip
    · rw [hassoc, List.getElem?_append, if_pos (by omega)]
      rw [List.getElem?_take, if_pos hip]
    · have hip2 : p + 2 ≤ i := by omega
      rw [hassoc, getElem?_append_pos _ _ i (i - p) (by omega)]
      rw [show [x, y] ++ data.drop (p + 2) = [x, y] ++ (data.drop (p + 2)) from rfl]
      rw [List.getElem?_append_right (by simp; omega)]
      rw [List.getElem?_drop]
      congr 1
      simp
      omega

/-- C9 counterexample: the claim calls the track-count field "4-byte-
aligned", but the offset the header writer records for it is 10, and
10 is not divisible by 4. -/
theorem c9_alignment_counterexample :
    (write Format.Multiple (Division.PPQN 96)).track_count_pos = 10
    ∧ (write Format.Multiple (Division.PPQN 96)).track_count_pos % 4 ≠ 0 := by
  constructor
  · rfl
  · decide

/-- C9 (amended): the header writer emits a placeholder 0 for the u16
track-count field at offset 10 (which is 2 mod 4, not 4-byte-aligned) and
records that offset; track() increments the u16 track count (wrapping at
2^16); finish() backpatches the big-endian count into that field only when
at least one track was begun, and leaves every other byte of the output
and the final stream position unchanged. -/
theorem c9_track_count_backpatch (f : Format) (dv : Division) (w : WriterState) :
    ((write f dv).track_count_pos = 10
      ∧ (write f dv).stream.data[10]? = some 0
      ∧ (write f dv).stream.data[11]? = some 0
      ∧ (write f dv).track_count = 0)
    ∧ (Writer.track w).track_count = (w.track_count + 1) % 65536
    ∧ (w.track_count = 0 → Writer.finish w = w.stream)
    ∧ (0 < w.track_count → w.track_count_pos + 2 ≤ w.stream.data.length →
        (Writer.finish w).pos = w.stream.pos
        ∧ (Writer.finish w).data[w.track_count_pos]? = some (w.track_count / 256 % 256)
        ∧ (Writer.finish w).data[w.track_count_pos + 1]? = some (w.track_count % 256)
        ∧ ∀ i, i ≠ w.track_count_pos → i ≠ w.track_count_pos + 1 →
            (Writer.finish w).data[i]? = w.stream.data[i]?) := by
  refine ⟨⟨rfl, ?_, ?_, rfl⟩, rfl, ?_, ?_⟩
  · show ((write f dv).stream.data)[10]? = some 0
    simp [write, WStream.write_all, be16, be32]
  · show ((write f dv).stream.data)[11]? = some 0
    simp [write, WStream.write_all, be16, be32]
  · intro h
    unfold Writer.finish
    rw [if_neg (by omega)]
  · intro htc hlen
    unfold Writer.finish
    rw [if_pos htc]
    obtain ⟨hx, hy, hrest⟩ := overwrite2_getElem w.stream.data w.track_count_pos
      (w.track_count / 256 % 256) (w.track_count % 256) hlen
    exact ⟨rfl, hx, hy, hrest⟩

theorem c9_witness :
    ((write Format.Single (Division.PPQN 480)).track_count_pos = 10
      ∧ (write Format.Single (Division.PPQN 480)).stream.data[10]? = some 0
      ∧ (write Format.Single (Division.PPQN 480)).stream.data[11]? = some 0
      ∧ (write Format.Single (Division.PPQN 480)).track_count = 0)
    ∧ (Writer.track (write Format.Single (Division.PPQN 480))).track_count
        = ((write Format.Single (Division.PPQN 480)).track_count + 1) % 65536
    ∧ ((write Format.Single (Division.PPQN 480)).track_count = 0 →
        Writer.finish (write Format.Single (Division.PPQN 480))
          = (write Format.Single (Division.PPQN 480)).stream)
    ∧ (0 < (write Format.Single (Division.PPQN 480)).track_count →
        (write Format.Single (Division.PPQN 480)).track_count_pos + 2
            ≤ (write Format.Single (Division.PPQN 480)).stream.data.length →
        (Writer.finish (write Format.Single (Division.PPQN 480))).pos
            = (write Format.Single (Division.PPQN 480)).stream.pos
        ∧ (Writer.finish (write Format.Single (Division.PPQN 480))).data[
            (write Format.Single (Division.PPQN 480)).track_count_pos]?
            = some ((write Format.Single (Division.PPQN 480)).track_count / 256 % 256)
        ∧ (Writer.finish (write Format.Single (Division.PPQN 480))).data[
            (write Format.Single (Division.PPQN 480)).track_count_pos + 1]?
            = some ((write Format.Single (Division.PPQN 480)).track_count % 256)
        ∧ ∀ i, i ≠ (write Format.Single (Division.PPQN 480)).track_count_pos →
            i ≠ (write Format.Single (Division.PPQN 480)).track_count_pos + 1 →
            (Writer.finish (write Format.Single (Division.PPQN 480))).data[i]?
              = (write Format.Single (Division.PPQN 480)).stream.data[i]?) :=
  c9_track_count_backpatch Format.Single (Division.PPQN 480)
    (write Format.Single (Division.PPQN 480))

/-- C1: the write/read round trip fails on a contract-valid sysex event.
The event data [0xF0, 0x01, 0xF7] satisfies every debug_assert of
TrackWriter::sysex_event (0xF0 status, interior payload 7-bit-safe,
terminating 0xF7 allowed and expected), yet reading the writer's own
output fails with an invalid-byte error on the terminating 0xF7 instead of
yielding the event's sysex callback: read() validates the whole payload,
including the 0xF7 terminator its own continuation logic just matched. -/
theorem c1_sysex_roundtrip_fails :
    ([0xF0, 0x01, 0xF7].headI = 0xF0
      ∧ ([0xF0, 0x01, 0xF7] : List Nat).length > 1
      ∧ [0xF0, 0x01, 0xF7].getLast? = some 0xF7
      ∧ ∀ b ∈ (([0xF0, 0x01, 0xF7] : List Nat).drop 1).take 1, b < 0x80)
    ∧ read (Writer.finish (TrackWriter.finish (TrackWriter.sysex_event
          (Writer.track (write Format.Multiple (Division.PPQN 96))) 0
          [0xF0, 0x01, 0xF7]))).data
        = .error (.invalidByte 0xF7 28) := by
  constructor
  · decide
  · decide

/-- C2: the sysex continuation state machine.  The writer accepts the split
payload — a 0xF0 packet [0xF0, 0x01] (opens the continuation) followed by a
0xF7 packet [0xF7, 0x02, 0xF7] (whose trailing 0xF7 closes it) — but the
reader fails with an invalid-byte error on the closing packet's terminating
0xF7 instead of issuing the second sysex callback; a non-0xF7 status while
the continuation is open does fail with the unexpected-continuation
error. -/
theorem c2_split_sysex_rejected :
    (TrackWriter.sysex_event (Writer.track (write Format.Multiple (Division.PPQN 96))) 0
        [0xF0, 0x01]).sysex_continuation = true
    ∧ (TrackWriter.sysex_event (TrackWriter.sysex_event
        (Writer.track (write Format.Multiple (Division.PPQN 96))) 0 [0xF0, 0x01]) 0
        [0xF7, 0x02, 0xF7]).sysex_continuation = false
    ∧ read (Writer.finish (TrackWriter.finish (TrackWriter.sysex_event
          (TrackWriter.sysex_event (Writer.track (write Format.Multiple (Division.PPQN 96)))
            0 [0xF0, 0x01]) 0 [0xF7, 0x02, 0xF7]))).data
        = .error (.invalidByte 0xF7 32)
    ∧ readEvent [0x00, 0x90, 0x3C, 0x64] 0 0 ⟨true, 0⟩
        = .error (.unexpectedContinuation 0x90 0 2) := by
  refine ⟨rfl, rfl, by decide, by decide⟩

/-- C4: the 7-bit-safety errors do not report the offending byte's stream
offset.  For a meta event with high-bit type id 0x80 the reported offset is
current_pos + 1 (ignoring the delta VLQ): here the error says offset 23,
but byte 23 is the 0xFF status and the offending 0x80 sits at offset 24.
For a sysex payload the base is the position after the payload: the
round-trip file of one sysex event reports offset 28 for the 0xF7 that sits
at offset 26 of a 27-byte stream — one past the end. -/
theorem c4_offset_misreported :
    read [0x4D, 0x54, 0x68, 0x64, 0, 0, 0, 6, 0, 0, 0, 1, 0, 0x60,
          0x4D, 0x54, 0x72, 0x6B, 0, 0, 0, 4, 0x00, 0xFF, 0x80, 0x00]
        = .error (.invalidByte 0x80 23)
    ∧ ([0x4D, 0x54, 0x68, 0x64, 0, 0, 0, 6, 0, 0, 0, 1, 0, 0x60,
        0x4D, 0x54, 0x72, 0x6B, 0, 0, 0, 4, 0x00, 0xFF, 0x80, 0x00] : List Nat)[23]?
        = some 0xFF
    ∧ ([0x4D, 0x54, 0x68, 0x64, 0, 0, 0, 6, 0, 0, 0, 1, 0, 0x60,
        0x4D, 0x54, 0x72, 0x6B, 0, 0, 0, 4, 0x00, 0xFF, 0x80, 0x00] : List Nat)[24]?
        = some 0x80
    ∧ read (Writer.finish (TrackWriter.finish (TrackWriter.sysex_event
          (Writer.track (write Format.Multiple (Division.PPQN 96))) 0
          [0xF0, 0x01, 0xF7]))).data
        = .error (.invalidByte 0xF7 28)
    ∧ (Writer.finish (TrackWriter.finish (TrackWriter.sysex_event
          (Writer.track (write Format.Multiple (Division.PPQN 96))) 0
          [0xF0, 0x01, 0xF7]))).data[26]? = some 0xF7
    ∧ (Writer.finish (TrackWriter.finish (TrackWriter.sysex_event
          (Writer.track (write Format.Multiple (Division.PPQN 96))) 0
          [0xF0, 0x01, 0xF7]))).data.length = 27 := by
  refine ⟨by decide, by decide, by decide, by decide, by decide, by decide⟩

end Smf
